import Mathlib

/-!
Verification of the BLE command/retry/reconnect layer and the device
registry of the led-new repository, as a shallow embedding of
`src/js/ble-controller-pro.js` and `src/js/device-manager.js`.

Machine integers are modelled as `Int` with explicit `% 256` where the
JavaScript applies `& 0xFF`; fallible registry operations return `Except`;
the asynchronous send loop is modelled as a deterministic function of an
environment that records the outcome the platform would give to each write,
reconnect and clock read, and it produces an explicit event trace (waits,
reconnect attempts, characteristic writes).
-/

namespace LedNew

/-- The two protocol profiles supported by `BLEController` (`this.COMMANDS`
keys `ELK_BLEDOM` and `GENERIC`). -/
inductive Protocol
  | ELK_BLEDOM
  | GENERIC
deriving DecidableEq, Repr

/-- The per-protocol command table of `BLEController.COMMANDS`
(ble-controller-pro.js): fixed frames for power, frame builders for
color / brightness / effect. Bytes are `Int` values. -/
structure CommandSet where
  POWER_ON : List Int
  POWER_OFF : List Int
  COLOR : Int → Int → Int → List Int
  BRIGHTNESS : Int → List Int
  EFFECT : Int → List Int

/-- `BLEController.COMMANDS` (ble-controller-pro.js lines 48–69).
The JavaScript computes the GENERIC color checksum as `(r+g+b) & 0xFF`,
which for the sums arising here (magnitude below 2^31) equals
`(r+g+b).emod 256`; the GENERIC effect builder clamps its argument with
`Math.min(255, Math.max(0, id))`. -/
def COMMANDS : Protocol → CommandSet
  | .ELK_BLEDOM =>
    { POWER_ON := [0x7e, 0x04, 0x04, 0x01, 0xff, 0xff, 0xff, 0x00, 0xef]
      POWER_OFF := [0x7e, 0x04, 0x04, 0x00, 0xff, 0xff, 0xff, 0x00, 0xef]
      COLOR := fun r g b => [0x7e, 0x07, 0x05, 0x03, r, g, b, 0x00, 0xef]
      BRIGHTNESS := fun level => [0x7e, 0x04, 0x01, level, 0xff, 0xff, 0xff, 0x00, 0xef]
      EFFECT := fun id => [0x7e, 0x05, 0x03, id, 0x03, 0xff, 0xff, 0x00, 0xef] }
  | .GENERIC =>
    { POWER_ON := [0x7e, 0x00, 0x04, 0xf0, 0x00, 0x01, 0xff, 0x00, 0xef]
      POWER_OFF := [0x7e, 0x00, 0x04, 0x00, 0x00, 0x00, 0xff, 0x00, 0xef]
      COLOR := fun r g b => [0x7e, 0x00, 0x05, 0x03, r, g, b, 0x00, (r + g + b).emod 256, 0xef]
      BRIGHTNESS := fun level => [0x7e, 0x00, 0x01, level, 0xff, 0xff, 0xff, 0x00, 0xef]
      EFFECT := fun id => [0x7e, 0x00, 0x03, (min 255 (max 0 id)), 0x03, 0xff, 0xff, 0x00, 0xef] }

/-- The runtime session state of a `BLEController` instance: the fields
touched by `sendCommand`, `reconnect` and `disconnect`. `device` holds the
platform device handle when non-null (the `Bool` is the snapshot of
`gatt.connected` read by `disconnect`); `server`/`service` record whether a
GATT server / service object is held; `characteristic` is the handle of the
resolved write characteristic (`none` = null), tagged by a number so that a
handle resolved by a later `reconnect` is distinguishable from a stale one. -/
structure BLEState where
  isConnected : Bool
  device : Option Bool
  server : Bool
  service : Bool
  characteristic : Option Nat
  protocol : Protocol
  lastCommandTime : Nat
deriving DecidableEq, Repr

/-- The platform environment a `sendCommand` run interacts with, indexed by
the attempt number: `timeAt n` is `Date.now()` at attempt `n`'s flood check,
`gattConnected n` the value of `this.device.gatt.connected` read at attempt
`n`, `reconnectOk n` whether a `reconnect` issued during attempt `n` resolves
server, service and characteristic, `freshChar n` the handle the reconnect
resolves, `writeOk n` whether the `writeValue` of attempt `n` completes
before the 5-second timeout, and `timeAfterWrite n` the `Date.now()` read
right after a successful write. -/
structure SendEnv where
  timeAt : Nat → Nat
  gattConnected : Nat → Bool
  reconnectOk : Nat → Bool
  freshChar : Nat → Nat
  writeOk : Nat → Bool
  timeAfterWrite : Nat → Nat

/-- One observable event of a `sendCommand` run: a `setTimeout` wait (flood
spacing, backoff or settle), a `reconnect` call with its outcome, or a
`writeValue` on the characteristic handle `ch` with its outcome. -/
inductive Ev
  | wait (ms : Nat)
  | reconnect (ok : Bool)
  | write (ch : Nat) (ok : Bool)
deriving DecidableEq, Repr

/-- `BLEController.reconnect` (ble-controller-pro.js lines 261–275), during
attempt `n` of a send: if no device handle is held the guard
`this.device && this.device.gatt` fails and nothing happens; otherwise on
success server, service and a fresh characteristic are resolved (the code
does not touch `isConnected` on success), and on failure the `catch` sets
`isConnected = false` and returns false, leaving the stale handles in place. -/
def reconnect (env : SendEnv) (st : BLEState) (n : Nat) : Bool × BLEState :=
  match st.device with
  | none => (false, st)
  | some _ =>
    if env.reconnectOk n then
      (true, { st with server := true, service := true,
                       characteristic := some (env.freshChar n) })
    else
      (false, { st with isConnected := false })

/-- The number of milliseconds `this.commandDelay` (flood spacing). -/
def commandDelay : Nat := 50

/-- The body of one iteration of `sendCommand`'s retry loop (attempt `n`):
flood wait if less than `commandDelay` ms elapsed since `lastCommandTime`;
read `this.device.gatt.connected` (a null device makes this line throw,
which the surrounding `catch` turns into a failed attempt with no write);
call `reconnect` when the link is down — its boolean result is discarded by
the caller, so the write is attempted in either case; write with the
5-second timeout race (`env.writeOk n` false covers both a write error and
the timeout); on success update `lastCommandTime` and wait the 50 ms settle
interval. Returns (attempt succeeded, state after, events of this attempt). -/
def attemptStep (env : SendEnv) (st : BLEState) (n : Nat) : Bool × BLEState × List Ev :=
  let t := env.timeAt n
  let elapsed := t - st.lastCommandTime
  let floodEvs : List Ev :=
    if elapsed < commandDelay then [Ev.wait (commandDelay - elapsed)] else []
  match st.device with
  | none => (false, st, floodEvs)
  | some _ =>
    let (st1, evs1) :=
      if env.gattConnected n then (st, floodEvs)
      else
        let (rOk, st') := reconnect env st n
        (st', floodEvs ++ [Ev.reconnect rOk])
    let ch := st1.characteristic.getD 0
    if env.writeOk n then
      (true, { st1 with lastCommandTime := env.timeAfterWrite n },
       evs1 ++ [Ev.write ch true, Ev.wait 50])
    else
      (false, st1, evs1 ++ [Ev.write ch false])

/-- The retry loop `for (let attempt = 1; attempt <= retries; attempt++)` of
`sendCommand`: `n` is the current attempt number, `remaining` the number of
iterations left. A successful attempt returns true at once; a failed final
attempt returns false; a failed non-final attempt waits `100 * attempt` ms
and retries. -/
def sendLoop (env : SendEnv) (st : BLEState) (n : Nat) (remaining : Nat) :
    Bool × BLEState × List Ev :=
  match remaining with
  | 0 => (false, st, [])
  | r + 1 =>
    let (ok, st', evs) := attemptStep env st n
    if ok then (true, st', evs)
    else if r = 0 then (false, st', evs)
    else
      let (res, st'', evs') := sendLoop env st' (n + 1) r
      (res, st'', evs ++ [Ev.wait (100 * n)] ++ evs')

/-- `BLEController.sendCommand` (ble-controller-pro.js lines 201–258): if the
session is not connected or no characteristic is resolved, return false at
once (only a log is emitted); otherwise run the retry loop starting at
attempt 1. Returns (result, final state, event trace). -/
def sendCommand (env : SendEnv) (st : BLEState) (retries : Nat := 3) :
    Bool × BLEState × List Ev :=
  if st.isConnected && st.characteristic.isSome then
    sendLoop env st 1 retries
  else
    (false, st, [])

/-- Number of `writeValue` attempts recorded in a trace. -/
def countWrites (t : List Ev) : Nat :=
  (t.filter fun e => match e with | .write _ _ => true | _ => false).length

/-- `BLEController.disconnect` (ble-controller-pro.js lines 457–468): when a
device handle is held and its GATT link is connected the platform
`gatt.disconnect()` is called (no modelled field changes); then
`isConnected` is cleared and device, server, service and characteristic are
nulled unconditionally. -/
def disconnect (st : BLEState) : BLEState :=
  { st with isConnected := false, device := none, server := false,
            service := false, characteristic := none }

/-- A JavaScript value fed to `setColorRGB`: either a number with integral
value `n` (for which `parseInt` returns `n` itself), or a value whose
`parseInt` is `NaN` (non-numeric), which `|| 0` coerces to 0. -/
inductive JSVal
  | num (n : Int)
  | nonNum
deriving DecidableEq, Repr

/-- The `parseInt(x) || 0` coercion used by `setColorRGB`. -/
def parseIntOr0 : JSVal → Int
  | .num n => n
  | .nonNum => 0

/-- The channel validation `Math.max(0, Math.min(255, parseInt(x) || 0))`
of `setColorRGB` (ble-controller-pro.js lines 295–309). -/
def clamp255 (v : JSVal) : Int :=
  max 0 (min 255 (parseIntOr0 v))

/-- The frame `setColorRGB` builds and hands to `sendCommand`: the active
protocol's `COLOR` template applied to the three clamped channels. -/
def setColorRGB_frame (p : Protocol) (r g b : JSVal) : List Int :=
  (COMMANDS p).COLOR (clamp255 r) (clamp255 g) (clamp255 b)

/-- The fixed color-frame size of each profile: the ELK-BLEDOM color
template has 9 bytes, the GENERIC one 10 (its extra checksum byte). -/
def profileColorFrameSize : Protocol → Nat
  | .ELK_BLEDOM => 9
  | .GENERIC => 10

/-- The per-protocol command tables of `DEVICE_CONFIG.PROTOCOLS`
(device-manager.js lines 38–61): power on/off, color and brightness frames
(this table carries no effect command; the source fields `on`/`off` are
named `onCmd`/`offCmd` here because `on` is a reserved token). -/
structure DMCommandSet where
  onCmd : List Int
  offCmd : List Int
  color : Int → Int → Int → List Int
  brightness : Int → List Int

/-- `DEVICE_CONFIG.PROTOCOLS[i].commands` for the two protocol entries of
device-manager.js: the ELK_BLEDOM entry holds 8-byte sentinel-delimited
frames, the GENERIC entry holds 2–4 byte frames without sentinels. -/
def DEVICE_CONFIG_commands : Protocol → DMCommandSet
  | .ELK_BLEDOM =>
    { onCmd := [0x7E, 0x00, 0x04, 0x01, 0x00, 0x00, 0x00, 0xEF]
      offCmd := [0x7E, 0x00, 0x04, 0x00, 0x00, 0x00, 0x00, 0xEF]
      color := fun r g b => [0x7E, 0x00, 0x05, r, g, b, 0x00, 0xEF]
      brightness := fun v => [0x7E, 0x00, 0x0E, v, 0x00, 0x00, 0x00, 0xEF] }
  | .GENERIC =>
    { onCmd := [0x01, 0xFF]
      offCmd := [0x01, 0x00]
      color := fun r g b => [0x02, r, g, b]
      brightness := fun v => [0x03, v] }

/-- The outbound-frame shape claimed by the wire-format section of the spec:
8–10 bytes, first byte the start sentinel 0x7E, last byte the end sentinel
0xEF. -/
def frameOk (f : List Int) : Prop :=
  8 ≤ f.length ∧ f.length ≤ 10 ∧ f.head? = some 0x7E ∧ f.getLast? = some 0xEF

instance (f : List Int) : Decidable (frameOk f) := by
  unfold frameOk; infer_instance

/-- A `DeviceRecord` of the `DeviceManager` registry, restricted to the
fields the modelled operations read or write: `id`, `name`, the nullable
`group` reference and `updatedAt`. -/
structure Device where
  id : String
  name : String
  group : Option String
  updatedAt : Nat
deriving DecidableEq, Repr

/-- A `Group` of the `DeviceManager` registry (created by `createGroup`):
id, name, member-device id list, nullable parent-group id, child-group id
list, cached hierarchy level and `updatedAt`. -/
structure Group where
  id : String
  name : String
  devices : List String
  parentGroup : Option String
  subGroups : List String
  level : Nat
  updatedAt : Nat
deriving DecidableEq, Repr

/-- A `ConnectionHistoryEntry` appended by `DeviceManager.addToHistory`. -/
structure HistEntry where
  deviceId : String
  deviceName : String
  action : String
  timestamp : Nat
deriving DecidableEq, Repr

/-- The registry state of a `DeviceManager` instance: the `devices`,
`groups` and `connectionHistory` arrays (persistence via localStorage is a
side effect with no bearing on the modelled state). -/
structure DMState where
  devices : List Device
  groups : List Group
  connectionHistory : List HistEntry
deriving DecidableEq, Repr

/-- In-place mutation of the first element matching `p` (JavaScript's
`find` returning a live reference into the array, which the caller then
mutates): every other element is untouched. -/
def updateFirst (p : α → Bool) (f : α → α) : List α → List α
  | [] => []
  | x :: xs => if p x then f x :: xs else x :: updateFirst p f xs

/-- `DeviceManager.addDeviceToGroup` (device-manager.js lines 697–729):
look up the device and the target group (throwing `Gerät nicht gefunden` /
`Gruppe nicht gefunden` when absent), remove the device id from its prior
group's member list if it has one, set the device's `group` reference and
`updatedAt`, and append the device id to the target group's member list
unless already present, stamping the group's `updatedAt`. -/
def addDeviceToGroup (st : DMState) (deviceId groupId : String) (now : Nat) :
    Except String DMState :=
  match st.devices.find? (fun d => d.id == deviceId),
        st.groups.find? (fun g => g.id == groupId) with
  | none, _ => .error "Geraet nicht gefunden"
  | some _, none => .error "Gruppe nicht gefunden"
  | some device, some _ =>
    let groups1 :=
      match device.group with
      | some oldId =>
        updateFirst (fun g => g.id == oldId)
          (fun g => { g with devices := g.devices.filter (fun i => i != deviceId) })
          st.groups
      | none => st.groups
    let devices1 :=
      updateFirst (fun d => d.id == deviceId)
        (fun d => { d with group := some groupId, updatedAt := now }) st.devices
    let groups2 :=
      updateFirst (fun g => g.id == groupId)
        (fun g => { g with
            devices := if g.devices.contains deviceId then g.devices
                       else g.devices ++ [deviceId],
            updatedAt := now }) groups1
    .ok { st with devices := devices1, groups := groups2 }

/-- The `findIndex` + `splice(index, 1)` pair of `DeviceManager.deleteGroup`
fused into one traversal: `none` when no group has the id (`findIndex`
returned −1), otherwise the list with the first matching group removed. -/
def deleteGroupAux (groupId : String) : List Group → Option (List Group)
  | [] => none
  | g :: gs =>
    if g.id == groupId then some gs
    else (deleteGroupAux groupId gs).map (g :: ·)

/-- `DeviceManager.deleteGroup` (device-manager.js lines 767–789): throw
`Gruppe nicht gefunden` when the id is absent; otherwise clear the `group`
reference of every device pointing at the deleted group and splice the group
out of the list. Nothing else is touched: parents' `subGroups` lists and
children's `parentGroup` references keep the dangling id. -/
def deleteGroup (st : DMState) (groupId : String) : Except String DMState :=
  match deleteGroupAux groupId st.groups with
  | none => .error "Gruppe nicht gefunden"
  | some groups1 =>
    let devices1 := st.devices.map fun d =>
      if d.group == some groupId then { d with group := none } else d
    .ok { st with devices := devices1, groups := groups1 }

/-- `DeviceManager.addToHistory` (device-manager.js lines 798–814): build
the entry from the device snapshot, `unshift` it to the front, and when the
length exceeds 100 keep only the first 100 entries. -/
def addToHistory (hist : List HistEntry) (dev : Device) (action : String)
    (now : Nat) : List HistEntry :=
  let entry : HistEntry :=
    { deviceId := dev.id, deviceName := dev.name, action := action, timestamp := now }
  let h := entry :: hist
  if h.length > 100 then h.take 100 else h

/-- The entry a single `addToHistory` call writes. -/
def mkEntry : Device × String × Nat → HistEntry
  | (d, a, t) => { deviceId := d.id, deviceName := d.name, action := a, timestamp := t }

/-- A sequence of `addToHistory` calls applied in order to a history list. -/
def applyHistory (hist : List HistEntry) : List (Device × String × Nat) → List HistEntry
  | [] => hist
  | (d, a, t) :: cs => applyHistory (addToHistory hist d a t) cs

/-- An environment in which the link stays up and every write fails
(the spec's always-failing transport). -/
def envAllFail : SendEnv :=
  { timeAt := fun _ => 1000, gattConnected := fun _ => true,
    reconnectOk := fun _ => true, freshChar := fun _ => 0,
    writeOk := fun _ => false, timeAfterWrite := fun _ => 0 }

/-- An environment in which the link reports down, recovery fails and every
write fails. -/
def envDown : SendEnv :=
  { timeAt := fun _ => 1000, gattConnected := fun _ => false,
    reconnectOk := fun _ => false, freshChar := fun _ => 99,
    writeOk := fun _ => false, timeAfterWrite := fun _ => 0 }

/-- A connected session whose resolved characteristic has handle 7. -/
def stConn : BLEState :=
  { isConnected := true, device := some true, server := true, service := true,
    characteristic := some 7, protocol := .ELK_BLEDOM, lastCommandTime := 0 }

/-- A disconnected session. -/
def stDisc : BLEState :=
  { isConnected := false, device := none, server := false, service := false,
    characteristic := none, protocol := .ELK_BLEDOM, lastCommandTime := 0 }

/-- A device record used by concrete registry scenarios. -/
def devW : Device := { id := "d1", name := "LED", group := none, updatedAt := 0 }

/-- 150 sequential `addToHistory` call inputs. -/
def cs150 : List (Device × String × Nat) := List.replicate 150 (devW, "connected", 0)

/-- A registry with one device and two empty groups `g1`, `g2`. -/
def dmSt0 : DMState :=
  { devices := [devW]
    groups := [{ id := "g1", name := "A", devices := [], parentGroup := none,
                 subGroups := [], level := 0, updatedAt := 0 },
               { id := "g2", name := "B", devices := [], parentGroup := none,
                 subGroups := [], level := 0, updatedAt := 0 }]
    connectionHistory := [] }

/-- `dmSt0` after `addDeviceToGroup "d1" "g1"` at time 1. -/
def dmSt1 : DMState :=
  { devices := [{ id := "d1", name := "LED", group := some "g1", updatedAt := 1 }]
    groups := [{ id := "g1", name := "A", devices := ["d1"], parentGroup := none,
                 subGroups := [], level := 0, updatedAt := 1 },
               { id := "g2", name := "B", devices := [], parentGroup := none,
                 subGroups := [], level := 0, updatedAt := 0 }]
    connectionHistory := [] }

/-- `dmSt1` after `addDeviceToGroup "d1" "g2"` at time 2. -/
def dmSt2 : DMState :=
  { devices := [{ id := "d1", name := "LED", group := some "g2", updatedAt := 2 }]
    groups := [{ id := "g1", name := "A", devices := [], parentGroup := none,
                 subGroups := [], level := 0, updatedAt := 1 },
               { id := "g2", name := "B", devices := ["d1"], parentGroup := none,
                 subGroups := [], level := 0, updatedAt := 2 }]
    connectionHistory := [] }

/-- A registry with a group tree `p → g → c` and one device in `g`. -/
def dmTree : DMState :=
  { devices := [{ id := "d1", name := "LED", group := some "g", updatedAt := 0 }]
    groups := [{ id := "p", name := "P", devices := [], parentGroup := none,
                 subGroups := ["g"], level := 0, updatedAt := 0 },
               { id := "g", name := "G", devices := ["d1"], parentGroup := some "p",
                 subGroups := ["c"], level := 1, updatedAt := 0 },
               { id := "c", name := "C", devices := [], parentGroup := some "g",
                 subGroups := [], level := 2, updatedAt := 0 }]
    connectionHistory := [] }

/-- `dmTree` after `deleteGroup "g"`: the device's group reference is
cleared, `p` keeps the dangling `"g"` in `subGroups`, `c` keeps
`parentGroup = "g"`. -/
def dmTreeDel : DMState :=
  { devices := [{ id := "d1", name := "LED", group := none, updatedAt := 0 }]
    groups := [{ id := "p", name := "P", devices := [], parentGroup := none,
                 subGroups := ["g"], level := 0, updatedAt := 0 },
               { id := "c", name := "C", devices := [], parentGroup := some "g",
                 subGroups := [], level := 2, updatedAt := 0 }]
    connectionHistory := [] }

theorem countWrites_append (a b : List Ev) :
    countWrites (a ++ b) = countWrites a + countWrites b := by
  simp [countWrites, List.filter_append]

theorem countWrites_flood (env : SendEnv) (st : BLEState) (n : Nat) :
    countWrites (if env.timeAt n - st.lastCommandTime < commandDelay then
      [Ev.wait (commandDelay - (env.timeAt n - st.lastCommandTime))] else []) = 0 := by
  split <;> simp [countWrites]

theorem attemptStep_fail (env : SendEnv) (st : BLEState) (n : Nat)
    (hdev : st.device.isSome = true) (hw : env.writeOk n = false) :
    (attemptStep env st n).1 = false ∧ (attemptStep env st n).2.1.device = st.device ∧
    countWrites (attemptStep env st n).2.2 = 1 := by
  obtain ⟨d, hd⟩ := Option.isSome_iff_exists.mp hdev
  by_cases hg : env.gattConnected n
  · simp [attemptStep, hd, hg, hw, countWrites_append, countWrites_flood, countWrites]
  · by_cases hr : env.reconnectOk n <;>
      simp [attemptStep, reconnect, hd, hg, hr, hw, countWrites_append,
        countWrites_flood, countWrites]

theorem sendLoop_allFail (env : SendEnv) (hw : ∀ m, env.writeOk m = false) :
    ∀ (remaining n : Nat) (st : BLEState), st.device.isSome = true →
      (sendLoop env st n remaining).1 = false ∧
      countWrites (sendLoop env st n remaining).2.2 = remaining := by
  intro remaining
  induction remaining with
  | zero => intro n st _; simp [sendLoop, countWrites]
  | succ r ih =>
    intro n st hdev
    have hstep := attemptStep_fail env st n hdev (hw n)
    rcases hAS : attemptStep env st n with ⟨ok, st', evs⟩
    rw [hAS] at hstep
    obtain ⟨hok, hdev', hcnt⟩ := hstep
    simp only at hok hdev' hcnt
    subst hok
    rcases Nat.eq_zero_or_pos r with hr | hr
    · subst hr; simp [sendLoop, hAS, hcnt]
    · have ih' := ih (n + 1) st' (by rw [hdev']; exact hdev)
      have hrne : ¬ r = 0 := Nat.pos_iff_ne_zero.mp hr
      constructor
      · simp [sendLoop, hAS, hrne, ih'.1]
      · have htr : (sendLoop env st n (r + 1)).2.2 =
            evs ++ [Ev.wait (100 * n)] ++ (sendLoop env st' (n + 1) r).2.2 := by
          simp [sendLoop, hAS, hrne]
        rw [htr, countWrites_append, countWrites_append, hcnt, ih'.2]
        simp [countWrites]
        omega

theorem attemptStep_clean (env : SendEnv) (st : BLEState) (n : Nat) (d : Bool) (c : Nat)
    (hd : st.device = some d) (hch : st.characteristic = some c)
    (hg : env.gattConnected n = true) (hw : env.writeOk n = false)
    (ht : st.lastCommandTime + 50 ≤ env.timeAt n) :
    attemptStep env st n = (false, st, [Ev.write c false]) := by
  have hf : ¬ (env.timeAt n - st.lastCommandTime < commandDelay) := by
    simp only [commandDelay]; omega
  simp [attemptStep, hd, hch, hg, hw, hf]

/-- C1. With a transport whose every write fails, `sendCommand` with the
default retry budget of 3 returns false, performs exactly 3 write attempts
and never a 4th, and — when the link stays up and the flood spacing is
already satisfied — its full event trace is exactly three failed writes
separated by the linear-backoff waits of `100·1` ms and `100·2` ms. -/
theorem sendCommand_retry_budget (env : SendEnv) (st : BLEState) (c : Nat)
    (hconn : st.isConnected = true) (hch : st.characteristic = some c)
    (hdev : st.device.isSome = true)
    (hw : ∀ n, env.writeOk n = false) :
    (sendCommand env st 3).1 = false ∧
    countWrites (sendCommand env st 3).2.2 = 3 ∧
    ((∀ n, env.gattConnected n = true) →
     (∀ n, st.lastCommandTime + 50 ≤ env.timeAt n) →
     (sendCommand env st 3).2.2 =
       [Ev.write c false, Ev.wait 100, Ev.write c false, Ev.wait 200,
        Ev.write c false]) := by
  have hguard : (st.isConnected && st.characteristic.isSome) = true := by
    simp [hconn, hch]
  have hmain := sendLoop_allFail env hw 3 1 st hdev
  refine ⟨?_, ?_, ?_⟩
  · simpa [sendCommand, hguard] using hmain.1
  · simpa [sendCommand, hguard] using hmain.2
  · intro hg hflood
    obtain ⟨d, hd⟩ := Option.isSome_iff_exists.mp hdev
    have h1 := attemptStep_clean env st 1 d c hd hch (hg 1) (hw 1) (hflood 1)
    have h2 := attemptStep_clean env st 2 d c hd hch (hg 2) (hw 2) (hflood 2)
    have h3 := attemptStep_clean env st 3 d c hd hch (hg 3) (hw 3) (hflood 3)
    simp [sendCommand, hguard, sendLoop, h1, h2, h3]

/-- C1 witness: the retry-budget theorem instantiated at a concrete
connected session and a concrete always-failing transport. -/
theorem sendCommand_retry_budget_witness :
    (sendCommand envAllFail stConn 3).1 = false ∧
    countWrites (sendCommand envAllFail stConn 3).2.2 = 3 ∧
    (sendCommand envAllFail stConn 3).2.2 =
      [Ev.write 7 false, Ev.wait 100, Ev.write 7 false, Ev.wait 200,
       Ev.write 7 false] := by
  have h := sendCommand_retry_budget envAllFail stConn 7 rfl rfl rfl (fun _ => rfl)
  exact ⟨h.1, h.2.1, h.2.2 (fun _ => rfl) (fun _ => by norm_num [envAllFail, stConn])⟩

/-- C2 counterexample: a concrete connected session whose link reports down
and whose recovery fails at every attempt. The claim says a failed recovery
aborts the attempt with no write through the stale characteristic, but the
trace shows each of the three attempts performing a write on the stale
handle 7 right after its failed reconnect. -/
theorem sendCommand_reconnect_fail_still_writes :
    (sendCommand envDown stConn 3).2.2 =
      [Ev.reconnect false, Ev.write 7 false, Ev.wait 100,
       Ev.reconnect false, Ev.write 7 false, Ev.wait 200,
       Ev.reconnect false, Ev.write 7 false] ∧
    countWrites (sendCommand envDown stConn 3).2.2 ≠ 0 := by
  constructor <;> decide

/-- C2 amended: when the liveness check finds the link down, `sendCommand`
invokes `reconnect` before the write; if recovery fails the session is
marked not-connected, but the attempt is not aborted — the write is still
performed through the previously resolved (stale) characteristic, and its
failure is what counts toward the retry budget. -/
theorem sendCommand_reconnect_before_write (env : SendEnv) (st : BLEState)
    (c : Nat) (d : Bool)
    (hconn : st.isConnected = true) (hch : st.characteristic = some c)
    (hd : st.device = some d)
    (hg : env.gattConnected 1 = false) (hr : env.reconnectOk 1 = false)
    (hw : env.writeOk 1 = false)
    (ht : st.lastCommandTime + 50 ≤ env.timeAt 1) :
    attemptStep env st 1 =
      (false, { st with isConnected := false },
       [Ev.reconnect false, Ev.write c false]) ∧
    ∃ rest, (sendCommand env st 3).2.2 =
      Ev.reconnect false :: Ev.write c false :: rest := by
  have hf : ¬ (env.timeAt 1 - st.lastCommandTime < commandDelay) := by
    simp only [commandDelay]; omega
  have hstep : attemptStep env st 1 =
      (false, { st with isConnected := false },
       [Ev.reconnect false, Ev.write c false]) := by
    simp [attemptStep, reconnect, hd, hch, hg, hr, hw, hf]
  refine ⟨hstep, ?_⟩
  have hguard : (st.isConnected && st.characteristic.isSome) = true := by
    simp [hconn, hch]
  refine ⟨Ev.wait 100 ::
    (sendLoop env { st with isConnected := false } 2 2).2.2, ?_⟩
  simp [sendCommand, hguard, sendLoop, hstep]

/-- C2 amended witness: the theorem instantiated at the concrete link-down
environment and connected session. -/
theorem sendCommand_reconnect_before_write_witness :
    attemptStep envDown stConn 1 =
      (false, { stConn with isConnected := false },
       [Ev.reconnect false, Ev.write 7 false]) ∧
    ∃ rest, (sendCommand envDown stConn 3).2.2 =
      Ev.reconnect false :: Ev.write 7 false :: rest :=
  sendCommand_reconnect_before_write envDown stConn 7 true rfl rfl rfl rfl rfl rfl
    (by norm_num [envDown, stConn])

/-- C3. If the session is not connected or has no resolved characteristic,
`sendCommand` returns false immediately, performs no write (empty trace)
and leaves the session state unchanged; being a total function, it cannot
throw. -/
theorem sendCommand_not_connected (env : SendEnv) (st : BLEState) (retries : Nat)
    (h : st.isConnected = false ∨ st.characteristic = none) :
    sendCommand env st retries = (false, st, []) := by
  rcases h with h | h <;> simp [sendCommand, h]

/-- C3 witness: the not-connected rejection at a concrete disconnected
session. -/
theorem sendCommand_not_connected_witness :
    sendCommand envAllFail stDisc 3 = (false, stDisc, []) :=
  sendCommand_not_connected envAllFail stDisc 3 (Or.inl rfl)

/-- C9. `disconnect` is idempotent: a second call yields the same terminal
state as the first (it is a total function, so it cannot throw), and that
state has `isConnected` false and device, server, service and
characteristic cleared. -/
theorem disconnect_idempotent (st : BLEState) :
    disconnect (disconnect st) = disconnect st ∧
    (disconnect st).isConnected = false ∧
    (disconnect st).device = none ∧
    (disconnect st).server = false ∧
    (disconnect st).service = false ∧
    (disconnect st).characteristic = none :=
  ⟨rfl, rfl, rfl, rfl, rfl, rfl⟩

/-- C4. For every protocol and all inputs — negative, above 255, or
non-numeric — the frame `setColorRGB` builds carries the three clamped
channels at byte positions 4–6, each clamped value lies in [0, 255],
clamping of a numeric input is `max 0 (min 255 ·)`, a non-numeric input
coerces to 0, and the frame length equals the profile's fixed color-frame
size (9 for ELK_BLEDOM, 10 for GENERIC). -/
theorem setColorRGB_clamps (p : Protocol) (r g b : JSVal) :
    setColorRGB_frame p r g b =
      (COMMANDS p).COLOR (clamp255 r) (clamp255 g) (clamp255 b) ∧
    (setColorRGB_frame p r g b).get? 4 = some (clamp255 r) ∧
    (setColorRGB_frame p r g b).get? 5 = some (clamp255 g) ∧
    (setColorRGB_frame p r g b).get? 6 = some (clamp255 b) ∧
    (∀ v : JSVal, 0 ≤ clamp255 v ∧ clamp255 v ≤ 255) ∧
    (∀ n : Int, clamp255 (JSVal.num n) = max 0 (min 255 n)) ∧
    clamp255 JSVal.nonNum = 0 ∧
    (setColorRGB_frame p r g b).length = profileColorFrameSize p := by
  have hbound : ∀ v : JSVal, 0 ≤ clamp255 v ∧ clamp255 v ≤ 255 := by
    intro v
    refine ⟨le_max_left 0 _, max_le (by norm_num) (min_le_left 255 _)⟩
  cases p <;>
    exact ⟨rfl, rfl, rfl, rfl, hbound, fun n => rfl, rfl, rfl⟩

/-- C5. For the GENERIC protocol the color frame carries, at byte
position 8, a checksum equal to `(r+g+b) mod 256`, while no byte position
of the ELK_BLEDOM color frame holds such a checksum for all in-range
channel values. -/
theorem generic_checksum_elk_none :
    (∀ r g b : Int,
      ((COMMANDS .GENERIC).COLOR r g b).get? 8 = some ((r + g + b) % 256)) ∧
    ¬ ∃ i : Nat, ∀ r g b : Int,
      0 ≤ r → r ≤ 255 → 0 ≤ g → g ≤ 255 → 0 ≤ b → b ≤ 255 →
      ((COMMANDS .ELK_BLEDOM).COLOR r g b).get? i = some ((r + g + b) % 256) := by
  constructor
  · intro r g b; rfl
  · rintro ⟨i, h⟩
    have h139 := h 1 3 9 (by norm_num) (by norm_num) (by norm_num) (by norm_num)
      (by norm_num) (by norm_num)
    have hlt : i < 9 := by
      by_contra hge
      rw [List.get?_eq_none.mpr (by simpa [COMMANDS] using Nat.le_of_not_lt hge)] at h139
      exact Option.noConfusion h139
    interval_cases i <;> simp [COMMANDS] at h139

/-- C6 counterexample: the GENERIC `on` frame of the device-manager's
protocol table is `[0x01, 0xFF]` — 2 bytes with neither the 0x7E start
sentinel nor the 0xEF end sentinel — refuting the claim that every outbound
frame of both tables is an 8–10 byte sentinel-delimited array. -/
theorem dm_generic_on_not_framed :
    ¬ frameOk ((DEVICE_CONFIG_commands .GENERIC).onCmd) := by decide

/-- C6 amended: every frame of `BLEController.COMMANDS` — both protocols,
all five operations, any arguments — is a 9–10 byte array starting with
0x7E and ending with 0xEF, and so are the 8-byte ELK_BLEDOM frames of the
device-manager table; the device-manager GENERIC frames (2–4 bytes, no
sentinels) are the exception. -/
theorem frames_sentinels :
    (∀ p, frameOk ((COMMANDS p).POWER_ON) ∧ frameOk ((COMMANDS p).POWER_OFF)) ∧
    (∀ p r g b, frameOk ((COMMANDS p).COLOR r g b)) ∧
    (∀ p l, frameOk ((COMMANDS p).BRIGHTNESS l)) ∧
    (∀ p i, frameOk ((COMMANDS p).EFFECT i)) ∧
    frameOk ((DEVICE_CONFIG_commands .ELK_BLEDOM).onCmd) ∧
    frameOk ((DEVICE_CONFIG_commands .ELK_BLEDOM).offCmd) ∧
    (∀ r g b, frameOk ((DEVICE_CONFIG_commands .ELK_BLEDOM).color r g b)) ∧
    (∀ v, frameOk ((DEVICE_CONFIG_commands .ELK_BLEDOM).brightness v)) ∧
    ¬ frameOk ((DEVICE_CONFIG_commands .GENERIC).offCmd) ∧
    (∀ r g b, ¬ frameOk ((DEVICE_CONFIG_commands .GENERIC).color r g b)) ∧
    (∀ v, ¬ frameOk ((DEVICE_CONFIG_commands .GENERIC).brightness v)) := by
  refine ⟨fun p => ?_, fun p r g b => ?_, fun p l => ?_, fun p i => ?_, ?_, ?_,
    fun r g b => ?_, fun v => ?_, ?_, fun r g b => ?_, fun v => ?_⟩
  · cases p <;> exact ⟨by decide, by decide⟩
  · cases p <;> exact ⟨by simp [COMMANDS], by simp [COMMANDS], rfl, rfl⟩
  · cases p <;> exact ⟨by simp [COMMANDS], by simp [COMMANDS], rfl, rfl⟩
  · cases p <;> exact ⟨by simp [COMMANDS], by simp [COMMANDS], rfl, rfl⟩
  · decide
  · decide
  · exact ⟨by simp [DEVICE_CONFIG_commands], by simp [DEVICE_CONFIG_commands], rfl, rfl⟩
  · exact ⟨by simp [DEVICE_CONFIG_commands], by simp [DEVICE_CONFIG_commands], rfl, rfl⟩
  · decide
  · simp [frameOk, DEVICE_CONFIG_commands]
  · simp [frameOk, DEVICE_CONFIG_commands]

theorem updateFirst_map_key {α : Type} (k : α → String) (p : α → Bool) (f : α → α)
    (hf : ∀ a, k (f a) = k a) :
    ∀ l : List α, (updateFirst p f l).map k = l.map k := by
  intro l
  induction l with
  | nil => rfl
  | cons x xs ih => by_cases hp : p x <;> simp [updateFirst, hp, hf, ih]

theorem mem_updateFirst_of_not {α : Type} {p : α → Bool} {f : α → α} {a : α}
    {l : List α} (ha : p a = false) (h : a ∈ l) : a ∈ updateFirst p f l := by
  induction l with
  | nil => exact absurd h (List.not_mem_nil a)
  | cons x xs ih =>
    rcases List.mem_cons.mp h with rfl | hmem
    · simp [updateFirst, ha]
    · by_cases hp : p x
      · rw [updateFirst, if_pos hp]
        exact List.mem_cons_of_mem (f x) hmem
      · rw [updateFirst, if_neg hp]
        exact List.mem_cons_of_mem x (ih hmem)

theorem mem_updateFirst_origin {α : Type} {p : α → Bool} {f : α → α} {g : α}
    {l : List α} (h : g ∈ updateFirst p f l) :
    g ∈ l ∨ ∃ a, a ∈ l ∧ p a = true ∧ g = f a := by
  induction l with
  | nil => exact absurd h (List.not_mem_nil g)
  | cons x xs ih =>
    by_cases hp : p x
    · rw [updateFirst, if_pos hp] at h
      rcases List.mem_cons.mp h with rfl | hmem
      · exact Or.inr ⟨x, List.mem_cons_self x xs, hp, rfl⟩
      · exact Or.inl (List.mem_cons_of_mem x hmem)
    · rw [updateFirst, if_neg hp] at h
      rcases List.mem_cons.mp h with rfl | hmem
      · exact Or.inl (List.mem_cons_self g xs)
      · rcases ih hmem with hi | ⟨a, hal, hpa, hfa⟩
        · exact Or.inl (List.mem_cons_of_mem x hi)
        · exact Or.inr ⟨a, List.mem_cons_of_mem x hal, hpa, hfa⟩

theorem updateFirst_mem_of_find? {α : Type} {p : α → Bool} (f : α → α) {a : α}
    {l : List α} (h : l.find? p = some a) : f a ∈ updateFirst p f l := by
  induction l with
  | nil => exact absurd h (by simp)
  | cons x xs ih =>
    by_cases hp : p x
    · rw [List.find?_cons_of_pos _ hp] at h
      obtain rfl := Option.some_injective _ h
      simp [updateFirst, hp]
    · rw [List.find?_cons_of_neg _ hp] at h
      simp [updateFirst, hp, ih h]

theorem find?_updateFirst {α : Type} {p : α → Bool} {f : α → α}
    (hp : ∀ a, p (f a) = p a) :
    ∀ l : List α, (updateFirst p f l).find? p = (l.find? p).map f := by
  intro l
  induction l with
  | nil => rfl
  | cons x xs ih =>
    by_cases hx : p x
    · rw [updateFirst, if_pos hx, List.find?_cons_of_pos _ (by rw [hp]; exact hx),
        List.find?_cons_of_pos _ hx]
      rfl
    · rw [updateFirst, if_neg hx, List.find?_cons_of_neg _ hx,
        List.find?_cons_of_neg _ hx, ih]

theorem mem_updateFirst_key_eq {α : Type} {k : α → String} {f : α → α} {x : String}
    {g : α} :
    ∀ {l : List α}, (l.map k).Nodup →
      g ∈ updateFirst (fun a => k a == x) f l → k g = x →
      ∃ a, a ∈ l ∧ k a = x ∧ g = f a := by
  intro l
  induction l with
  | nil => intro _ h _; exact absurd h (List.not_mem_nil g)
  | cons y ys ih =>
    intro hnd h hgk
    rw [List.map_cons] at hnd
    have hnd' := List.nodup_cons.mp hnd
    by_cases hy : k y = x
    · rw [updateFirst, if_pos (by simpa using hy)] at h
      rcases List.mem_cons.mp h with rfl | hmem
      · exact ⟨y, List.mem_cons_self y ys, hy, rfl⟩
      · have hmm : k g ∈ ys.map k := List.mem_map_of_mem k hmem
        rw [hgk, ← hy] at hmm
        exact absurd hmm hnd'.1
    · rw [updateFirst, if_neg (by simpa using hy)] at h
      rcases List.mem_cons.mp h with rfl | hmem
      · exact absurd hgk hy
      · obtain ⟨a, hal, hax, hfa⟩ := ih hnd'.2 hmem hgk
        exact ⟨a, List.mem_cons_of_mem y hal, hax, hfa⟩

theorem mem_updateFirst_key_ne {α : Type} {k : α → String} {f : α → α} {x : String}
    {g : α} {l : List α} (hf : ∀ a, k (f a) = k a)
    (h : g ∈ updateFirst (fun a => k a == x) f l) (hgk : k g ≠ x) : g ∈ l := by
  rcases mem_updateFirst_origin h with hl | ⟨a, _, hpa, rfl⟩
  · exact hl
  · exact absurd ((hf a) ▸ (by simpa using hpa)) hgk

theorem take_append_take {α : Type} (n : Nat) (x y : List α) :
    (x ++ y.take n).take n = (x ++ y).take n := by
  rw [List.take_append_eq_append_take, List.take_append_eq_append_take, List.take_take,
    Nat.min_eq_left (Nat.sub_le n x.length)]

theorem addToHistory_eq_take (h : List HistEntry) (dev : Device) (a : String)
    (t : Nat) (hlen : h.length ≤ 100) :
    addToHistory h dev a t = (mkEntry (dev, a, t) :: h).take 100 := by
  simp only [addToHistory, mkEntry]
  split
  · rfl
  · exact (List.take_of_length_le (by simp at *; omega)).symm

theorem applyHistory_take (cs : List (Device × String × Nat)) :
    ∀ h : List HistEntry, h.length ≤ 100 →
      applyHistory h cs = ((cs.map mkEntry).reverse ++ h).take 100 := by
  induction cs with
  | nil =>
    intro h hlen
    simp [applyHistory, (List.take_of_length_le hlen)]
  | cons c cs ih =>
    intro h hlen
    obtain ⟨d, a, t⟩ := c
    have hstep := addToHistory_eq_take h d a t hlen
    have hlen' : (addToHistory h d a t).length ≤ 100 := by
      rw [hstep]; simp
    calc applyHistory h ((d, a, t) :: cs)
        = applyHistory (addToHistory h d a t) cs := rfl
      _ = ((cs.map mkEntry).reverse ++ addToHistory h d a t).take 100 := ih _ hlen'
      _ = ((cs.map mkEntry).reverse ++ (mkEntry (d, a, t) :: h).take 100).take 100 := by
          rw [hstep]
      _ = ((cs.map mkEntry).reverse ++ (mkEntry (d, a, t) :: h)).take 100 :=
          take_append_take 100 _ _
      _ = ((((d, a, t) :: cs).map mkEntry).reverse ++ h).take 100 := by
          simp

theorem deleteGroupAux_spec (g : String) :
    ∀ {l l' : List Group}, deleteGroupAux g l = some l' →
      ∃ pre m post, l = pre ++ m :: post ∧ m.id = g ∧
        (∀ a ∈ pre, a.id ≠ g) ∧ l' = pre ++ post := by
  intro l
  induction l with
  | nil => intro l' h; exact absurd h (by simp [deleteGroupAux])
  | cons x xs ih =>
    intro l' h
    by_cases hx : x.id = g
    · rw [deleteGroupAux, if_pos (by simpa using hx)] at h
      obtain rfl := Option.some_injective _ h
      exact ⟨[], x, xs, rfl, hx, by simp, rfl⟩
    · rw [deleteGroupAux, if_neg (by simpa using hx)] at h
      rcases haux : deleteGroupAux g xs with _ | l''
      · rw [haux] at h; exact absurd h (by simp)
      · rw [haux] at h
        obtain rfl := Option.some_injective _ (by simpa using h)
        obtain ⟨pre, m, post, hsplit, hm, hpre, hl⟩ := ih haux
        exact ⟨x :: pre, m, post, by simp [hsplit], hm,
          by simpa [hx] using hpre, by simp [hl]⟩

/-- C8. The connection history never exceeds 100 entries under any sequence
of `addToHistory` calls starting from the empty history, and after exactly
150 sequential calls it has length exactly 100 and equals the most recent
100 entries in reverse-chronological (newest-first) order. -/
theorem addToHistory_cap (cs : List (Device × String × Nat)) :
    (applyHistory [] cs).length ≤ 100 ∧
    (cs.length = 150 →
      applyHistory [] cs = ((cs.map mkEntry).reverse).take 100 ∧
      (applyHistory [] cs).length = 100) := by
  have h := applyHistory_take cs [] (by simp)
  rw [List.append_nil] at h
  refine ⟨?_, fun h150 => ⟨h, ?_⟩⟩
  · rw [h]; simp
  · rw [h]; simp [h150]

/-- C8 witness: the history cap evaluated on 150 concrete calls. -/
theorem addToHistory_cap_witness : (applyHistory [] cs150).length = 100 :=
  ((addToHistory_cap cs150).2 (by simp [cs150])).2

theorem addDeviceToGroup_ok {st st' : DMState} {d gid : String} {now : Nat}
    (h : addDeviceToGroup st d gid now = .ok st') :
    ∃ dev grp, st.devices.find? (fun x => x.id == d) = some dev ∧
      st.groups.find? (fun x => x.id == gid) = some grp ∧
      st'.devices = updateFirst (fun x => x.id == d)
        (fun x => { x with group := some gid, updatedAt := now }) st.devices ∧
      st'.groups = updateFirst (fun x => x.id == gid)
        (fun x => { x with
            devices := if x.devices.contains d then x.devices else x.devices ++ [d],
            updatedAt := now })
        (match dev.group with
         | some oldId => updateFirst (fun x => x.id == oldId)
             (fun x => { x with devices := x.devices.filter (fun i => i != d) })
             st.groups
         | none => st.groups) ∧
      st'.connectionHistory = st.connectionHistory := by
  rcases hfd : st.devices.find? (fun x => x.id == d) with _ | dev <;>
    rcases hfg : st.groups.find? (fun x => x.id == gid) with _ | grp <;>
      simp only [addDeviceToGroup, hfd, hfg] at h
  · exact absurd h (by simp)
  · exact absurd h (by simp)
  · exact absurd h (by simp)
  · rw [Except.ok.injEq] at h
    subst h
    exact ⟨dev, grp, hfd, hfg, rfl, rfl, rfl⟩

/-- C7. After `addDeviceToGroup d g2` following a prior
`addDeviceToGroup d g1` (group ids distinct, group-id list duplicate-free),
the device's group reference is `g2`, some group with id `g2` lists the
device, and no group with id `g1` lists it any more. -/
theorem addDeviceToGroup_single_group
    (st st1 st2 : DMState) (d g1 g2 : String) (t1 t2 : Nat)
    (hnd : (st.groups.map (fun x => x.id)).Nodup)
    (hne : g1 ≠ g2)
    (h1 : addDeviceToGroup st d g1 t1 = .ok st1)
    (h2 : addDeviceToGroup st1 d g2 t2 = .ok st2) :
    ((st2.devices.find? (fun x => x.id == d)).map (fun x => x.group) =
      some (some g2)) ∧
    (∃ g, g ∈ st2.groups ∧ g.id = g2 ∧ d ∈ g.devices) ∧
    (∀ g, g ∈ st2.groups → g.id = g1 → d ∉ g.devices) := by
  obtain ⟨dev0, grp1, hfd0, hfg1, hdev1, hgrp1, hhist1⟩ := addDeviceToGroup_ok h1
  obtain ⟨dev1, grp2, hfd1, hfg2, hdev2, hgrp2, hhist2⟩ := addDeviceToGroup_ok h2
  have hfu1 := find?_updateFirst (p := fun x : Device => x.id == d)
      (f := fun x : Device => { x with group := some g1, updatedAt := t1 })
      (fun a => rfl) st.devices
  have hfd1' : st1.devices.find? (fun x => x.id == d) =
      some { dev0 with group := some g1, updatedAt := t1 } := by
    rw [hdev1, hfu1, hfd0]
    rfl
  have hdev1eq : dev1 = { dev0 with group := some g1, updatedAt := t1 } := by
    rw [hfd1'] at hfd1
    exact (Option.some_injective _ hfd1).symm
  have hdev1group : dev1.group = some g1 := by rw [hdev1eq]
  have hgrp2' : st2.groups =
      updateFirst (fun x => x.id == g2)
        (fun x => { x with
            devices := if x.devices.contains d then x.devices else x.devices ++ [d],
            updatedAt := t2 })
        (updateFirst (fun x => x.id == g1)
          (fun x => { x with devices := x.devices.filter (fun i => i != d) })
          st1.groups) := by
    rw [hgrp2, hdev1group]
  have hmap1 : st1.groups.map (fun x => x.id) = st.groups.map (fun x => x.id) := by
    rw [hgrp1]
    rw [updateFirst_map_key (fun x : Group => x.id) (fun x => x.id == g1)
      (fun x : Group => { x with
          devices := if x.devices.contains d then x.devices else x.devices ++ [d],
          updatedAt := t1 }) (fun a => rfl)]
    cases dev0.group with
    | none => rfl
    | some oldId =>
      exact updateFirst_map_key (fun x : Group => x.id) (fun x => x.id == oldId)
        (fun x : Group => { x with devices := x.devices.filter (fun i => i != d) })
        (fun a => rfl) st.groups
  have hnd1 : (st1.groups.map (fun x => x.id)).Nodup := by rw [hmap1]; exact hnd
  refine ⟨?_, ?_, ?_⟩
  · have hfu2 := find?_updateFirst (p := fun x : Device => x.id == d)
        (f := fun x : Device => { x with group := some g2, updatedAt := t2 })
        (fun a => rfl) st1.devices
    have hfd2 : st2.devices.find? (fun x => x.id == d) =
        some { dev1 with group := some g2, updatedAt := t2 } := by
      rw [hdev2, hfu2, hfd1]
      rfl
    rw [hfd2]
    rfl
  · have hgrp2id : grp2.id = g2 := by simpa using List.find?_some hfg2
    have hgrp2mem : grp2 ∈ st1.groups := List.mem_of_find?_eq_some hfg2
    have hpredfalse : (fun x : Group => x.id == g1) grp2 = false := by
      show (grp2.id == g1) = false
      rw [hgrp2id]
      exact beq_eq_false_iff_ne.mpr (Ne.symm hne)
    have hinL1 : grp2 ∈ updateFirst (fun x => x.id == g1)
        (fun x => { x with devices := x.devices.filter (fun i => i != d) })
        st1.groups :=
      mem_updateFirst_of_not hpredfalse hgrp2mem
    have hsome : ∃ a, (updateFirst (fun x => x.id == g1)
        (fun x => { x with devices := x.devices.filter (fun i => i != d) })
        st1.groups).find? (fun x => x.id == g2) = some a := by
      rw [← Option.isSome_iff_exists, List.find?_isSome]
      exact ⟨grp2, hinL1, by simp [hgrp2id]⟩
    obtain ⟨a, hfa⟩ := hsome
    have haid : a.id = g2 := by simpa using List.find?_some hfa
    refine ⟨{ a with
        devices := if a.devices.contains d then a.devices else a.devices ++ [d],
        updatedAt := t2 }, ?_, ?_, ?_⟩
    · rw [hgrp2']
      exact updateFirst_mem_of_find? _ hfa
    · exact haid
    · show d ∈ (if a.devices.contains d then a.devices else a.devices ++ [d])
      by_cases hc : a.devices.contains d = true
      · rw [if_pos hc]
        exact List.mem_of_elem_eq_true hc
      · rw [if_neg hc]
        exact List.mem_append_right _ (List.mem_singleton_self d)
  · intro g hg hgid
    rw [hgrp2'] at hg
    have hgL1 : g ∈ updateFirst (fun x => x.id == g1)
        (fun x => { x with devices := x.devices.filter (fun i => i != d) })
        st1.groups :=
      mem_updateFirst_key_ne (k := fun x : Group => x.id)
        (f := fun x : Group => { x with
            devices := if x.devices.contains d then x.devices else x.devices ++ [d],
            updatedAt := t2 })
        (fun a => rfl) hg (by show g.id ≠ g2; rw [hgid]; exact hne)
    obtain ⟨a, hamem, haid, rfl⟩ :=
      mem_updateFirst_key_eq (k := fun x : Group => x.id) hnd1 hgL1 hgid
    simp

/-- C7 witness: the single-group invariant on a concrete registry after the
two concrete `addDeviceToGroup` calls. -/
theorem addDeviceToGroup_single_group_witness :
    ((dmSt2.devices.find? (fun x => x.id == "d1")).map (fun x => x.group) =
      some (some "g2")) ∧
    (∃ g, g ∈ dmSt2.groups ∧ g.id = "g2" ∧ "d1" ∈ g.devices) ∧
    (∀ g, g ∈ dmSt2.groups → g.id = "g1" → "d1" ∉ g.devices) :=
  addDeviceToGroup_single_group dmSt0 dmSt1 dmSt2 "d1" "g1" "g2" 1 2
    (by decide) (by decide) rfl rfl

/-- C10. `deleteGroup g` removes the (unique) group with id `g`, clears the
group reference of every device that pointed at it, and leaves every other
group untouched: any parent whose `subGroups` listed `g` still lists it, and
any child whose `parentGroup` was `g` still references it. -/
theorem deleteGroup_frame (st st' : DMState) (g : String)
    (hnd : (st.groups.map (fun x => x.id)).Nodup)
    (h : deleteGroup st g = .ok st') :
    (∀ grp, grp ∈ st'.groups → grp.id ≠ g) ∧
    (∀ dv, dv ∈ st'.devices → dv.group ≠ some g) ∧
    (∀ grp, grp ∈ st.groups → grp.id ≠ g → grp ∈ st'.groups) ∧
    (∀ dv, dv ∈ st.devices → dv.group ≠ some g → dv ∈ st'.devices) ∧
    (∀ p, p ∈ st.groups → p.id ≠ g → g ∈ p.subGroups →
      ∃ q, q ∈ st'.groups ∧ q.id = p.id ∧ g ∈ q.subGroups) ∧
    (∀ c, c ∈ st.groups → c.id ≠ g → c.parentGroup = some g →
      ∃ q, q ∈ st'.groups ∧ q.id = c.id ∧ q.parentGroup = some g) := by
  rcases haux : deleteGroupAux g st.groups with _ | gl <;>
    simp only [deleteGroup, haux] at h
  · exact absurd h (by simp)
  · rw [Except.ok.injEq] at h
    subst h
    obtain ⟨pre, m, post, hsplit, hmid, hpre, hl⟩ := deleteGroupAux_spec g haux
    subst hl
    have hnd2 : (m.id :: post.map (fun x => x.id)).Nodup := by
      rw [hsplit] at hnd
      simp only [List.map_append, List.map_cons] at hnd
      exact hnd.of_append_right
    have hgnotin : g ∉ post.map (fun x => x.id) := by
      have := (List.nodup_cons.mp hnd2).1
      rwa [hmid] at this
    have hc3 : ∀ grp, grp ∈ st.groups → grp.id ≠ g → grp ∈ pre ++ post := by
      intro grp hgrp hgid
      rw [hsplit] at hgrp
      rcases List.mem_append.mp hgrp with hp | hmp
      · exact List.mem_append.mpr (Or.inl hp)
      · rcases List.mem_cons.mp hmp with rfl | hpost
        · exact absurd hmid hgid
        · exact List.mem_append.mpr (Or.inr hpost)
    refine ⟨?_, ?_, hc3, ?_, ?_, ?_⟩
    · intro grp hgrp hgid
      rcases List.mem_append.mp hgrp with hp | hmp
      · exact hpre grp hp hgid
      · exact hgnotin (hgid ▸ List.mem_map_of_mem (fun x => x.id) hmp)
    · intro dv hdv
      obtain ⟨d0, hd0, rfl⟩ := List.mem_map.mp hdv
      by_cases hdg : (d0.group == some g) = true
      · simp [hdg]
      · simp only [hdg, if_neg, Bool.false_eq_true, not_false_eq_true, ite_false]
        exact fun hEq => hdg (by simp [hEq])
    · intro dv hdv hdg
      have hkeep : (if dv.group == some g then { dv with group := none } else dv) = dv := by
        rw [if_neg]
        simp [hdg]
      exact hkeep ▸ List.mem_map_of_mem _ hdv
    · intro p hp hpid hsub
      exact ⟨p, hc3 p hp hpid, rfl, hsub⟩
    · intro c hcm hcid hcp
      exact ⟨c, hc3 c hcm hcid, rfl, hcp⟩

/-- C10 witness: deleting the middle group of a three-level tree on a
concrete registry. -/
theorem deleteGroup_frame_witness :
    (∀ grp, grp ∈ dmTreeDel.groups → grp.id ≠ "g") ∧
    (∀ dv, dv ∈ dmTreeDel.devices → dv.group ≠ some "g") ∧
    (∀ grp, grp ∈ dmTree.groups → grp.id ≠ "g" → grp ∈ dmTreeDel.groups) ∧
    (∀ dv, dv ∈ dmTree.devices → dv.group ≠ some "g" → dv ∈ dmTreeDel.devices) ∧
    (∀ p, p ∈ dmTree.groups → p.id ≠ "g" → "g" ∈ p.subGroups →
      ∃ q, q ∈ dmTreeDel.groups ∧ q.id = p.id ∧ "g" ∈ q.subGroups) ∧
    (∀ c, c ∈ dmTree.groups → c.id ≠ "g" → c.parentGroup = some "g" →
      ∃ q, q ∈ dmTreeDel.groups ∧ q.id = c.id ∧ q.parentGroup = some "g") :=
  deleteGroup_frame dmTree dmTreeDel "g" (by decide) rfl

end LedNew
